import Mathlib

/-!
Verification of the `monadic` TypeScript library (a deferred Either/Result
monad) against its natural-language specification.

The embedding models the JavaScript runtime facts the code relies on:
untyped JS values (`JSVal`), truthiness, the `Either` tagged union from
`util.ts`, promise settlement (`PResult`: a promise either resolves or
rejects), user-supplied functions that may throw (`FnRes`), and promise
adoption (a `.then` callback returning a thenable is unwrapped before the
next callback sees it).  Each combinator of `Monad` (src/src/monad.ts) and
each static of `Util` (src/src/util.ts) is translated clause by clause.
-/

namespace Monadic

/-- Model of an untyped JavaScript value as it flows through the library:
strings, numbers, booleans, null, undefined, `Error` instances (carrying
their message), `DOMException` abort errors, and `HttpError`-like objects
carrying a message and a numeric statusCode field. -/
inductive JSVal where
  | str : String → JSVal
  | num : Int → JSVal
  | boolV : Bool → JSVal
  | nullV : JSVal
  | undef : JSVal
  | errObj : String → JSVal
  | abortError : JSVal
  | httpErr : String → Int → JSVal
deriving DecidableEq, Repr

namespace JSVal

/-- JavaScript truthiness of a value (used by the source in `if (error)`,
`if (options.continueOnError)`, `name || fallback`, etc.). -/
def truthy : JSVal → Bool
  | str s => s ≠ ""
  | num n => n ≠ 0
  | boolV b => b
  | nullV => false
  | undef => false
  | errObj _ => true
  | abortError => true
  | httpErr _ _ => true

/-- The test `error instanceof Error` performed by the coercion in
`map`/`flatMap`/`match`: true exactly for Error instances (DOMException
extends Error in the modelled runtime). -/
def isErrorInstance : JSVal → Bool
  | errObj _ => true
  | abortError => true
  | httpErr _ _ => true
  | _ => false

/-- The `message` property of an Error-like value. -/
def messageOf : JSVal → String
  | errObj m => m
  | httpErr m _ => m
  | abortError => "The operation was aborted"
  | _ => ""

/-- The check `result.error instanceof DOMException && result.error.name ===
"AbortError"` from `Util.timeout`. -/
def isAbortError : JSVal → Bool
  | abortError => true
  | _ => false

/-- The check `error.hasOwnProperty("statusCode")` from
`Monad.handleErrors`. -/
def hasStatusCode : JSVal → Bool
  | httpErr _ _ => true
  | _ => false

/-- The numeric `statusCode` property read by `Monad.handleErrors`. -/
def statusCodeOf : JSVal → Int
  | httpErr _ sc => sc
  | _ => 0

/-- The check `"message" in error` from `Monad.handleErrors`. -/
def hasMessage : JSVal → Bool
  | errObj _ => true
  | httpErr _ _ => true
  | abortError => true
  | _ => false

end JSVal

/-- The coercion `error instanceof Error ? error.message : error` applied by
`map`, `flatMap` and `match` to a thrown value before storing it in a
`Failure`. -/
def coerceErr (e : JSVal) : JSVal :=
  if e.isErrorInstance then JSVal.str e.messageOf else e

/-- The `Either` tagged union of src/src/util.ts: `Success{value}` or
`Failure{error}`. -/
inductive Either (T E : Type) where
  | success : T → Either T E
  | failure : E → Either T E
deriving DecidableEq, Repr

/-- The `isSuccess` variant test of Success/Failure. -/
def Either.isSuccess : Either T E → Bool
  | .success _ => true
  | .failure _ => false

/-- Settlement of a JavaScript promise: it either resolves with a value or
rejects with a reason. -/
inductive PResult (α : Type) where
  | resolved : α → PResult α
  | rejected : JSVal → PResult α
deriving DecidableEq, Repr

/-- Outcome of calling a user-supplied JavaScript function: it returns a
value or throws. -/
inductive FnRes (α : Type) where
  | returns : α → FnRes α
  | throws : JSVal → FnRes α
deriving DecidableEq, Repr

/-- The value a `flatMap` callback can produce (its TS type is
`U | Promise<U> | Monad<U, E>`, and at runtime it may also be a raw
`Failure` instance, which the source dispatches on): a plain value, a raw
`Failure` instance, a promise (with its eventual settlement), or a `Monad`
(with the settlement of its wrapped promise). -/
inductive FMRes (U : Type) where
  | plain : U → FMRes U
  | failureVal : JSVal → FMRes U
  | promiseOf : PResult U → FMRes U
  | monadOf : PResult (Either U JSVal) → FMRes U
deriving DecidableEq, Repr

/-- `Monad.map` (monad.ts lines 41-52), as a function of the receiver's
settled Either.  On Success the callback runs inside
`Promise.resolve().then(fn).then(Success).catch(coerce to Failure)`; on
Failure a new Failure with the same error is produced. -/
def mapM (fn : T → FnRes U) : Either T JSVal → PResult (Either U JSVal)
  | .success v =>
      match fn v with
      | .returns u => .resolved (.success u)
      | .throws e => .resolved (.failure (coerceErr e))
  | .failure e => .resolved (.failure e)

/-- `Monad.flatMap` (monad.ts lines 71-94), as a function of the receiver's
settled Either.  The chain is
`Promise.resolve().then(fn).catch(coerce).then(dispatch)`: a promise
returned by `fn` is adopted by the first `.then`, so a rejected returned
promise reaches the coercing `.catch` and the `value instanceof Promise`
branch of the dispatch never fires; a returned Monad is not a thenable and
reaches the dispatch, where its yielded promise is adopted (a rejection of
that promise propagates uncaught). -/
def flatMapM (fn : T → FnRes (FMRes U)) : Either T JSVal → PResult (Either U JSVal)
  | .failure e => .resolved (.failure e)
  | .success v =>
      match fn v with
      | .throws e => .resolved (.failure (coerceErr e))
      | .returns (.plain u) => .resolved (.success u)
      | .returns (.failureVal f) => .resolved (.failure f)
      | .returns (.promiseOf (.resolved u)) => .resolved (.success u)
      | .returns (.promiseOf (.rejected r)) => .resolved (.failure (coerceErr r))
      | .returns (.monadOf (.resolved e)) => .resolved e
      | .returns (.monadOf (.rejected r)) => .rejected r

/-- `Monad.recover` (monad.ts lines 109-113): on Failure the callback is
invoked directly inside the `.then` callback with no surrounding catch, so
a throwing callback rejects the derived promise. -/
def recoverM (fn : JSVal → FnRes T) : Either T JSVal → PResult (Either T JSVal)
  | .success v => .resolved (.success v)
  | .failure e =>
      match fn e with
      | .returns t => .resolved (.success t)
      | .throws ex => .rejected ex

/-- `Monad.orElse` (monad.ts lines 129-137) for a function alternative: on
Failure the alternative is invoked (uncaught if it throws) and its monad's
yielded promise is adopted. -/
def orElseM (alt : JSVal → FnRes (PResult (Either T JSVal))) :
    Either T JSVal → PResult (Either T JSVal)
  | .success v => .resolved (.success v)
  | .failure e =>
      match alt e with
      | .throws ex => .rejected ex
      | .returns m => m

/-- `Monad.filter` (monad.ts lines 212-228): on Success the predicate is
awaited inside try/catch (a throw or rejection is caught and converted via
`errorFn`); `errorFn` itself runs outside the try, so its throw rejects. -/
def filterM (predicate : T → FnRes Bool) (errorFn : T → FnRes JSVal) :
    Either T JSVal → PResult (Either T JSVal)
  | .failure e => .resolved (.failure e)
  | .success v =>
      match predicate v with
      | .throws _ =>
          match errorFn v with
          | .returns err => .resolved (.failure err)
          | .throws ex => .rejected ex
      | .returns b =>
          if b then .resolved (.success v)
          else
            match errorFn v with
            | .returns err => .resolved (.failure err)
            | .throws ex => .rejected ex

/-- `Monad.tap` (monad.ts lines 245-254): on Success,
`await Promise.resolve(fn(value))` runs with no catch, so a synchronous
throw or a rejected returned promise rejects the derived promise; the
callback's resolved value is discarded and the original Either returned. -/
def tapM (fn : T → FnRes (PResult Unit)) : Either T JSVal → PResult (Either T JSVal)
  | .failure e => .resolved (.failure e)
  | .success v =>
      match fn v with
      | .throws ex => .rejected ex
      | .returns (.rejected r) => .rejected r
      | .returns (.resolved _) => .resolved (.success v)

/-- `Monad.toPromise` (monad.ts lines 20-24): resolves with the Success
value, rejects with the Failure error; a rejection of the wrapped promise
propagates. -/
def toPromiseM : PResult (Either T JSVal) → PResult T
  | .rejected r => .rejected r
  | .resolved (.success v) => .resolved v
  | .resolved (.failure e) => .rejected e

/-- The `FoldResult` record of types.ts: `{result?: U, error?: E}` with
exactly one populated field as produced by `fold`. -/
inductive FoldRes (U : Type) where
  | result : U → FoldRes U
  | error : JSVal → FoldRes U
deriving DecidableEq, Repr

/-- `Monad.fold` (monad.ts lines 271-279): awaits `yield()` and runs the
selected callback inside try/catch; any throw (or rejection of the wrapped
promise) lands in the `error` field of the FoldResult. -/
def foldM (onSuccess : T → FnRes U) (onFailure : JSVal → FnRes U) :
    PResult (Either T JSVal) → FoldRes U
  | .rejected r => .error r
  | .resolved e =>
      match (match e with | .success v => onSuccess v | .failure err => onFailure err) with
      | .returns u => .result u
      | .throws ex => .error ex

/-- `Monad.log` (monad.ts lines 296-312): the transformer is applied to the
Either, the result handed to the logger's log method when one is present
(else to the console, modelled as never throwing); neither call is guarded,
so a throw from either rejects the derived promise. -/
def logM (loggerLog : Option (JSVal → FnRes Unit))
    (transformer : Either T JSVal → FnRes JSVal) :
    Either T JSVal → PResult (Either T JSVal) :=
  fun either =>
    match transformer either with
    | .throws ex => .rejected ex
    | .returns msg =>
        match loggerLog with
        | some lg =>
            match lg msg with
            | .throws ex => .rejected ex
            | .returns _ => .resolved either
        | none => .resolved either

/-- The `ErrorCriteria` record of types.ts: each present dimension filters;
`types` entries are constructor references, modelled by the set of values
that are `instanceof` them. -/
structure ErrorCriteria where
  statusCodes : Option (List Int) := none
  messages : Option (List String) := none
  types : Option (List (JSVal → Bool)) := none

/-- The criteria test of `Monad.handleErrors` (monad.ts lines 320-326):
absent dimensions are vacuously true (an empty array is truthy in JS and
therefore filters); present ones require the property and membership. -/
def criteriaMatch (criteria : ErrorCriteria) (e : JSVal) : Bool :=
  (match criteria.statusCodes with
   | none => true
   | some codes => e.hasStatusCode && codes.contains e.statusCodeOf) &&
  (match criteria.messages with
   | none => true
   | some msgs => e.hasMessage && msgs.contains e.messageOf) &&
  (match criteria.types with
   | none => true
   | some ts => ts.any (fun t => t e))

/-- `Monad.handleErrors` (monad.ts lines 314-332): on a matching Failure the
handler is invoked (uncaught if it throws) and its monad's yielded promise
adopted; otherwise the Either passes through. -/
def handleErrorsM (criteria : ErrorCriteria)
    (handler : JSVal → FnRes (PResult (Either T JSVal))) :
    Either T JSVal → PResult (Either T JSVal)
  | .success v => .resolved (.success v)
  | .failure e =>
      if criteriaMatch criteria e then
        match handler e with
        | .throws ex => .rejected ex
        | .returns m => m
      else .resolved (.failure e)

/-- The `MatchMode` enum of types.ts (`FIRST = 0`, `EVERY = 1`). -/
inductive MatchMode where
  | first : MatchMode
  | every : MatchMode
deriving DecidableEq, Repr

/-- The `MatchOptions` record of types.ts: all three fields are optional;
`none` models an absent (undefined) field. -/
structure MatchOptions where
  continueIfNoMatch : Option Bool := none
  continueOnError : Option Bool := none
  mode : Option MatchMode := none

/-- Truthiness of an optional boolean option field (`undefined` is falsy),
as tested by `if (options.continueOnError)` and
`!options.continueIfNoMatch`. -/
def optTruthy : Option Bool → Bool
  | none => false
  | some b => b

/-- The default `options` parameter value of `Monad.match` (monad.ts lines
160-164), used only when the options argument is omitted entirely. -/
def matchDefaults : MatchOptions :=
  { continueIfNoMatch := some false, continueOnError := some false,
    mode := some MatchMode.first }

/-- Outcome of awaiting a match condition's action inside the try block:
`ok` when the action returned (or its promise resolved) a value, `thrown`
when it threw (or its promise rejected). -/
inductive ActionRes where
  | ok : JSVal → ActionRes
  | thrown : JSVal → ActionRes
deriving DecidableEq, Repr

/-- A `MatchCondition` of types.ts: a predicate (which, being an unguarded
JS call, may itself throw) and an action producing `T | E | Promise<T | E>`.
Match operates on JS values, so both channels are `JSVal`. -/
structure MatchCond where
  condition : JSVal → FnRes Bool
  action : JSVal → ActionRes

/-- The condition loop of `Monad.match` (monad.ts lines 169-189), with the
`matched` flag threaded: a throwing predicate rejects the whole promise; a
matching condition runs its action; in strict-equality FIRST mode
(`options.mode === MatchMode.FIRST`) the action's value immediately becomes
the new Success; a thrown action returns the original Either under truthy
`continueOnError` and otherwise a coerced Failure; after the loop, no match
and falsy `continueIfNoMatch` gives Failure("No conditions matched"), and
every other path returns the original Either. -/
def matchGo (v : JSVal) (options : MatchOptions) :
    List MatchCond → Bool → PResult (Either JSVal JSVal)
  | [], matched =>
      if !matched && !(optTruthy options.continueIfNoMatch) then
        .resolved (.failure (.str "No conditions matched"))
      else .resolved (.success v)
  | c :: rest, matched =>
      match c.condition v with
      | .throws ex => .rejected ex
      | .returns b =>
          if b then
            match c.action v with
            | .ok a =>
                if options.mode = some MatchMode.first then .resolved (.success a)
                else matchGo v options rest true
            | .thrown ex =>
                if optTruthy options.continueOnError then .resolved (.success v)
                else .resolved (.failure (coerceErr ex))
          else matchGo v options rest matched

/-- `Monad.match` (monad.ts lines 158-194) as a function of the receiver's
settled Either: a Failure passes through untouched; a Success enters the
condition loop with `matched = false`. -/
def matchM (conditions : List MatchCond) (options : MatchOptions) :
    Either JSVal JSVal → PResult (Either JSVal JSVal)
  | .failure e => .resolved (.failure e)
  | .success v => matchGo v options conditions false

/-- `Util.of` (util.ts lines 128-133): `if (error)` is a truthiness test,
so a supplied falsy error selects the Success branch. -/
def ofM (v : T) (error : Option JSVal) : Either T JSVal :=
  match error with
  | some e => if e.truthy then .failure e else .success v
  | none => .success v

/-- The reduce of `Util.zip` (util.ts lines 212-222) over the settled child
results in input order, threading the accumulated key-value entries and the
`error` variable (initially `null`; a failing child's error is stored only
while the variable is still `=== null`).  The key is `name || "m" + i`
(a falsy name falls back to the positional key). -/
def zipFold : Nat → JSVal → List (String × T) →
    List (Option String × Either T JSVal) → List (String × T) × JSVal
  | _, err, acc, [] => (acc, err)
  | i, err, acc, (nm, r) :: rest =>
      let key :=
        match nm with
        | some n => if n = "" then "m" ++ toString i else n
        | none => "m" ++ toString i
      match r with
      | .success v => zipFold (i + 1) err (acc ++ [(key, v)]) rest
      | .failure e =>
          zipFold (i + 1) (if err = JSVal.nullV then e else err) acc rest

/-- `Util.zip` (util.ts lines 209-229) as a function of the children's
settled Eithers in input order (`Promise.all` preserves input order): the
final `if (error)` is a truthiness test, so the aggregate is a Failure only
when the recorded first-in-order error is truthy. -/
def zipM (children : List (Option String × Either T JSVal)) :
    Either (List (String × T)) JSVal :=
  let folded := zipFold 0 JSVal.nullV [] children
  if folded.2.truthy then .failure folded.2 else .success folded.1

/-- The recursive `retryOperation` of `Util.retry` (util.ts lines 246-255):
`op n` is the settled Either of the n-th invocation of `operationFn` (n
counts from 0, i.e. `times - retriesLeft`).  Returns the final Either
together with the list of `onError(error, attempt)` invocations, in order.
A Success or exhausted budget (`retriesLeft <= 0`) returns before `onError`
is consulted; otherwise `onError` fires only when `result.error` is truthy. -/
def retryOperation (op : Nat → Either T JSVal) (times : Nat) :
    Nat → Either T JSVal × List (JSVal × Nat)
  | 0 => (op (times - 0), [])
  | r + 1 =>
      match op (times - (r + 1)) with
      | .success v => (.success v, [])
      | .failure e =>
          let calls := if e.truthy then [(e, times - (r + 1))] else []
          let rest := retryOperation op times r
          (rest.1, calls ++ rest.2)

/-- `Util.retry` entry point: `retryOperation(times, delay)` is invoked with
`retriesLeft = times` (util.ts line 256); delays do not affect the settled
value and are elided. -/
def retryM (op : Nat → Either T JSVal) (times : Nat) :
    Either T JSVal × List (JSVal × Nat) :=
  retryOperation op times times

/-- Settlement behaviour of the operation raced by `Util.timeout`: its
monad's promise either resolves with an Either or rejects. -/
inductive OpOutcome (T : Type) where
  | resolves : Either T JSVal → OpOutcome T
  | rejects : JSVal → OpOutcome T
deriving DecidableEq, Repr

/-- `Util.timeout` (util.ts lines 273-309) under a discrete event clock:
`opTime` is when the operation's promise settles, `duration` when the timer
fires (at a tie the timer callback is modelled as running first).  If the
operation settles first: Success and non-abort Failure resolve the outer
promise with the operation's own Either (clearing the timer); an AbortError
Failure is left for the timer path; a rejection resolves a Failure carrying
the reason.  Otherwise the timer resolves Failure(timeoutError). -/
def timeoutM (outcome : OpOutcome T) (opTime duration : Nat)
    (timeoutError : JSVal) : Either T JSVal :=
  if opTime < duration then
    match outcome with
    | .resolves (.success v) => .success v
    | .resolves (.failure e) =>
        if e.isAbortError then .failure timeoutError else .failure e
    | .rejects r => .failure r
  else .failure timeoutError

/-- The chronological sequence of `resolve` calls made on the outer promise
of `Util.timeout`: when the timer fires first its resolve call precedes any
later resolve from the operation path (which JS promise semantics then
ignore); an operation that settles first with an AbortError Failure makes no
resolve call and only the timer path resolves. -/
def timeoutResolveCalls (outcome : OpOutcome T) (opTime duration : Nat)
    (timeoutError : JSVal) : List (Either T JSVal) :=
  if opTime < duration then
    match outcome with
    | .resolves (.success v) => [.success v]
    | .resolves (.failure e) =>
        if e.isAbortError then [.failure timeoutError] else [.failure e]
    | .rejects r => [.failure r]
  else
    .failure timeoutError ::
      (match outcome with
       | .resolves (.success v) => [.success v]
       | .resolves (.failure e) => if e.isAbortError then [] else [.failure e]
       | .rejects r => [.failure r])

/-- The underlying deferred computation of a promise: `run n` is the value
its executor would produce on its n-th execution (a faithful model must
allow different executions to differ, so that memoization is observable). -/
structure Computation (α : Type) where
  run : Nat → α

/-- A JavaScript promise as the `Monad` constructor stores it: its
computation, its memoized settled value (`none` while pending — a JS
promise settles at most once and caches the result), and how many times the
underlying computation has executed. -/
structure JsPromise (α : Type) where
  comp : Computation α
  memo : Option α := none
  execs : Nat := 0

/-- Awaiting a promise: a settled promise returns its memoized value with no
state change; a pending one executes the underlying computation once,
caches, and returns it. -/
def JsPromise.awaitStep (p : JsPromise α) : α × JsPromise α :=
  match p.memo with
  | some v => (v, p)
  | none =>
      let v := p.comp.run p.execs
      (v, { p with memo := some v, execs := p.execs + 1 })

/-- The `Monad` wrapper of monad.ts: it owns one promise (`private value`),
never reassigned after construction. -/
structure MonadP (α : Type) where
  value : JsPromise α

/-- `Monad.yield` (monad.ts lines 341-343): returns the wrapped promise
itself, unchanged. -/
def MonadP.yieldP (m : MonadP α) : JsPromise α := m.value

/-- Evaluating a promise built by `parent.then(transform)`: the parent is
awaited (running its computation at most once, memoized) and the transform
applied to the settled value; returns the transformed value together with
the parent promise's (possibly newly settled) state. -/
def chainEval (parent : JsPromise α) (transform : α → β) :
    β × JsPromise α :=
  let step := parent.awaitStep
  (transform step.1, step.2)

/-- A combinator's result, e.g. `new Monad(this.value.then(transform))`: a
brand-new Monad wrapping a brand-new pending promise whose computation
awaits the parent and applies the transform. -/
def MonadP.derive (m : MonadP α) (transform : α → β) : MonadP β :=
  ⟨{ comp := ⟨fun _ => (chainEval m.value transform).1⟩, memo := none,
     execs := 0 }⟩

/-- Keys the specification promises for a successful zip: each entry's name
when one is supplied, else the positional fallback key built from the
entry's index. -/
def zipSpecEntries : Nat → List (Option String × T) → List (String × T)
  | _, [] => []
  | i, (nm, v) :: rest =>
      ((match nm with
        | some n => n
        | none => "m" ++ toString i), v) :: zipSpecEntries (i + 1) rest

lemma truthy_ne_nullV (e : JSVal) (h : e.truthy = true) : e ≠ JSVal.nullV := by
  cases e <;> simp_all [JSVal.truthy]

lemma zipFold_snd_indep {T : Type} (rest : List (Option String × Either T JSVal)) :
    ∀ (i j : Nat) (err : JSVal) (acc acc2 : List (String × T)),
      (zipFold i err acc rest).2 = (zipFold j err acc2 rest).2 := by
  induction rest with
  | nil => intro i j err acc acc2; rfl
  | cons x rest ih =>
      intro i j err acc acc2
      obtain ⟨nm, r⟩ := x
      cases r <;> simp only [zipFold] <;> exact ih _ _ _ _ _

lemma zipFold_err_stable {T : Type} (rest : List (Option String × Either T JSVal)) :
    ∀ (i : Nat) (err : JSVal) (acc : List (String × T)), err ≠ JSVal.nullV →
      (zipFold i err acc rest).2 = err := by
  induction rest with
  | nil => intro i err acc _; rfl
  | cons x rest ih =>
      intro i err acc h
      obtain ⟨nm, r⟩ := x
      cases r with
      | success v => simpa only [zipFold] using ih _ _ _ h
      | failure e => simp only [zipFold, if_neg h]; exact ih _ _ _ h

lemma zipFold_first_failure {T : Type} (pre : List (Option String × Either T JSVal)) :
    ∀ (i : Nat) (acc : List (String × T)) (nm : Option String) (e : JSVal)
      (post : List (Option String × Either T JSVal)),
      (∀ x ∈ pre, (x.2).isSuccess = true ∨ x.2 = Either.failure JSVal.nullV) →
      e ≠ JSVal.nullV →
      (zipFold i JSVal.nullV acc (pre ++ (nm, Either.failure e) :: post)).2 = e := by
  induction pre with
  | nil =>
      intro i acc nm e post _ he
      simp only [List.nil_append, zipFold, if_pos rfl]
      exact zipFold_err_stable post _ _ _ he
  | cons x pre ih =>
      intro i acc nm e post hpre he
      obtain ⟨nm0, r0⟩ := x
      cases r0 with
      | success v =>
          simp only [List.cons_append, zipFold]
          exact ih _ _ nm e post (fun y hy => hpre y (List.mem_cons_of_mem _ hy)) he
      | failure e0 =>
          have h0 := hpre (nm0, Either.failure e0) (List.mem_cons_self _ _)
          have he0 : e0 = JSVal.nullV := by
            rcases h0 with h0 | h0
            · simp [Either.isSuccess] at h0
            · exact (Either.failure.injEq _ _).mp h0
          subst he0
          simp only [List.cons_append, zipFold, if_pos rfl]
          exact ih _ _ nm e post (fun y hy => hpre y (List.mem_cons_of_mem _ hy)) he

lemma zipFold_no_recorded_error {T : Type}
    (children : List (Option String × Either T JSVal)) :
    ∀ (i : Nat) (acc : List (String × T)),
      (∀ x ∈ children, (x.2).isSuccess = true ∨ x.2 = Either.failure JSVal.nullV) →
      (zipFold i JSVal.nullV acc children).2 = JSVal.nullV := by
  induction children with
  | nil => intro i acc _; rfl
  | cons x children ih =>
      intro i acc h
      obtain ⟨nm0, r0⟩ := x
      cases r0 with
      | success v =>
          simp only [zipFold]
          exact ih _ _ (fun y hy => h y (List.mem_cons_of_mem _ hy))
      | failure e0 =>
          have h0 := h (nm0, Either.failure e0) (List.mem_cons_self _ _)
          have he0 : e0 = JSVal.nullV := by
            rcases h0 with h0 | h0
            · simp [Either.isSuccess] at h0
            · exact (Either.failure.injEq _ _).mp h0
          subst he0
          simp only [zipFold, if_pos rfl]
          exact ih _ _ (fun y hy => h y (List.mem_cons_of_mem _ hy))

lemma zipFold_all_success {T : Type} (plain : List (Option String × T)) :
    ∀ (i : Nat) (acc : List (String × T)),
      (∀ x ∈ plain, x.1 ≠ some "") →
      zipFold i JSVal.nullV acc
          (plain.map (fun x => (x.1, Either.success x.2))) =
        (acc ++ zipSpecEntries i plain, JSVal.nullV) := by
  induction plain with
  | nil => intro i acc _; simp [zipFold, zipSpecEntries]
  | cons x plain ih =>
      intro i acc h
      obtain ⟨nm, v⟩ := x
      have hnm : nm ≠ some "" := h (nm, v) (List.mem_cons_self _ _)
      have step := ih (i + 1)
        ((acc ++ [((match nm with
                    | some n => n
                    | none => "m" ++ toString i), v)]))
        (fun y hy => h y (List.mem_cons_of_mem _ hy))
      cases nm with
      | none =>
          simp only [List.map_cons, zipFold, zipSpecEntries] at step ⊢
          rw [step]; simp
      | some n =>
          have hn : ¬ (n = "") := fun hh => hnm (by simp [hh])
          simp only [List.map_cons, zipFold, zipSpecEntries, if_neg hn] at step ⊢
          rw [step]; simp

/-- C2: on a Failure input, map, flatMap, filter and tap all settle to a
Failure carrying the unchanged error, for every user-supplied mapping
function, predicate, error factory, or tap callback — hence none of those
functions is ever invoked (the result does not depend on them). -/
theorem failure_short_circuits_combinators (T U : Type) (e : JSVal)
    (f : T → FnRes U) (fm : T → FnRes (FMRes U))
    (p : T → FnRes Bool) (ef : T → FnRes JSVal)
    (tp : T → FnRes (PResult Unit)) :
    mapM f (Either.failure e) = PResult.resolved (Either.failure e)
    ∧ flatMapM fm (Either.failure e) = PResult.resolved (Either.failure e)
    ∧ filterM p ef (Either.failure e) = PResult.resolved (Either.failure e)
    ∧ tapM tp (Either.failure e) = PResult.resolved (Either.failure e) :=
  ⟨rfl, rfl, rfl, rfl⟩

/-- C7 counterexample: `of(1, "")` supplies an error, yet because the source
tests the error with a truthiness check the result settles to Success(1),
not to Failure(""). -/
theorem of_falsy_error_counterexample :
    ofM (JSVal.num 1) (some (JSVal.str "")) = Either.success (JSVal.num 1)
    ∧ Either.success (JSVal.num 1)
        ≠ (Either.failure (JSVal.str "") : Either JSVal JSVal) := by
  constructor
  · rfl
  · simp

/-- C7 amended: `of(v, e)` settles to Failure(e) when the supplied error is
truthy; with the error argument omitted, or supplied but falsy (empty
string, 0, false, null, undefined), it settles to Success(v). -/
theorem of_spec_amended (T : Type) (v : T) :
    (∀ e : JSVal, e.truthy = true → ofM v (some e) = Either.failure e)
    ∧ ofM v none = Either.success v
    ∧ (∀ e : JSVal, e.truthy = false → ofM v (some e) = Either.success v) := by
  refine ⟨fun e he => ?_, rfl, fun e he => ?_⟩ <;> simp [ofM, he]

/-- C7 witness: instantiating the amended theorem at concrete inputs. -/
theorem of_spec_amended_witness :
    ofM (JSVal.num 1) (some (JSVal.errObj "boom"))
      = Either.failure (JSVal.errObj "boom")
    ∧ ofM (JSVal.num 1) (some (JSVal.boolV false)) = Either.success (JSVal.num 1) :=
  ⟨(of_spec_amended JSVal (JSVal.num 1)).1 _ rfl,
   (of_spec_amended JSVal (JSVal.num 1)).2.2 _ rfl⟩

/-- C9 counterexample: a flatMap callback returning a promise that rejects
with the Error instance "boom" yields Failure("boom") — the message string,
exactly as a synchronous throw would — not a Failure carrying the Error
as-is, because the returned promise is adopted by the chain and its
rejection reaches the coercing catch before the dispatch. -/
theorem flatMap_rejection_coerced_counterexample :
    @flatMapM JSVal JSVal
        (fun _ =>
          FnRes.returns (FMRes.promiseOf (PResult.rejected (JSVal.errObj "boom"))))
        (Either.success (JSVal.num 1))
      = PResult.resolved (Either.failure (JSVal.str "boom"))
    ∧ (PResult.resolved (Either.failure (JSVal.str "boom"))
          : PResult (Either JSVal JSVal))
        ≠ PResult.resolved (Either.failure (JSVal.errObj "boom")) := by
  constructor
  · rfl
  · simp

/-- C9 amended: a promise returned by the flatMap callback is adopted by the
`.then` that invoked the callback, so its rejection reason receives exactly
the same coercion as a synchronously thrown value (an Error instance is
replaced by its message string); the dispatch branch that would store the
reason as-is is unreachable, and rejection and synchronous throw of the same
reason are indistinguishable in the result. -/
theorem flatMap_rejected_promise_coerced (T U : Type) (v : T) (r : JSVal) :
    (∀ fn : T → FnRes (FMRes U),
       fn v = FnRes.returns (FMRes.promiseOf (PResult.rejected r)) →
       flatMapM fn (Either.success v)
         = PResult.resolved (Either.failure (coerceErr r)))
    ∧ (∀ gn : T → FnRes (FMRes U), gn v = FnRes.throws r →
       flatMapM gn (Either.success v)
         = PResult.resolved (Either.failure (coerceErr r))) := by
  constructor
  · intro fn h; simp [flatMapM, h]
  · intro gn h; simp [flatMapM, h]

/-- C9 witness: instantiating the amended theorem at concrete inputs shows
the rejected-promise path and the throw path both produce the coerced
Failure("boom"). -/
theorem flatMap_rejected_promise_coerced_witness :
    @flatMapM JSVal JSVal
        (fun _ =>
          FnRes.returns (FMRes.promiseOf
            (PResult.rejected (JSVal.errObj "boom"))))
        (Either.success (JSVal.num 1))
      = PResult.resolved (Either.failure (coerceErr (JSVal.errObj "boom")))
    ∧ @flatMapM JSVal JSVal (fun _ => FnRes.throws (JSVal.errObj "boom"))
        (Either.success (JSVal.num 1))
      = PResult.resolved (Either.failure (coerceErr (JSVal.errObj "boom"))) :=
  ⟨(flatMap_rejected_promise_coerced JSVal JSVal (JSVal.num 1)
      (JSVal.errObj "boom")).1 _ rfl,
   (flatMap_rejected_promise_coerced JSVal JSVal (JSVal.num 1)
      (JSVal.errObj "boom")).2 _ rfl⟩

/-- C6 counterexample: a single child that settles to Failure("") makes the
aggregate settle to Success({}) — the final `if (error)` truthiness test
drops the falsy error — contradicting the claim that any failing child
makes the aggregate a Failure carrying that error. -/
theorem zip_falsy_error_counterexample :
    zipM ([(none, Either.failure (JSVal.str ""))]
        : List (Option String × Either JSVal JSVal))
      = Either.success []
    ∧ (Either.success [] : Either (List (String × JSVal)) JSVal)
        ≠ Either.failure (JSVal.str "") := by
  constructor
  · rfl
  · simp

/-- C6 amended: zip records the first-in-input-order failing error that is
not null — a Failure(null) child never claims the error slot, because the
`error === null` test remains true after assigning null.  If the recorded
error is truthy, the aggregate settles to Failure carrying exactly that
error (independent of completion order, since the result is a function of
the settled children in input order).  If the recorded error is falsy but
non-null (empty string, 0, false, undefined), or every failing child's
error is null, the aggregate settles to Success despite the failing
children.  When every child settles to Success and every supplied name is
non-empty, the aggregate settles to Success holding the name-keyed entries,
with the positional fallback key for unnamed entries. -/
theorem zip_first_error_amended (T : Type) :
    (∀ (pre post : List (Option String × Either T JSVal)) (nm : Option String)
       (e : JSVal),
       (∀ x ∈ pre, (x.2).isSuccess = true ∨ x.2 = Either.failure JSVal.nullV) →
       e.truthy = true →
       zipM (pre ++ (nm, Either.failure e) :: post) = Either.failure e)
    ∧ (∀ (pre post : List (Option String × Either T JSVal)) (nm : Option String)
       (e : JSVal),
       (∀ x ∈ pre, (x.2).isSuccess = true ∨ x.2 = Either.failure JSVal.nullV) →
       e ≠ JSVal.nullV → e.truthy = false →
       (zipM (pre ++ (nm, Either.failure e) :: post)).isSuccess = true)
    ∧ (∀ children : List (Option String × Either T JSVal),
       (∀ x ∈ children, (x.2).isSuccess = true ∨ x.2 = Either.failure JSVal.nullV) →
       (zipM children).isSuccess = true)
    ∧ (∀ plain : List (Option String × T),
       (∀ x ∈ plain, x.1 ≠ some "") →
       zipM (plain.map (fun x => (x.1, Either.success x.2)))
         = Either.success (zipSpecEntries 0 plain)) := by
  refine ⟨?_, ?_, ?_, ?_⟩
  · intro pre post nm e hpre he
    have h2 := zipFold_first_failure pre 0 [] nm e post hpre (truthy_ne_nullV e he)
    simp only [zipM]
    rw [h2, if_pos he]
  · intro pre post nm e hpre hnn he
    have h2 := zipFold_first_failure pre 0 [] nm e post hpre hnn
    simp only [zipM]
    rw [h2, if_neg (by simp [he])]
    rfl
  · intro children h
    have h2 := zipFold_no_recorded_error children 0 [] h
    simp only [zipM]
    rw [h2]
    simp [JSVal.truthy, Either.isSuccess]
  · intro plain h
    have h2 := zipFold_all_success plain 0 [] h
    simp only [zipM]
    rw [h2]
    simp [JSVal.truthy]

/-- C6 witness: the spec's own example with truthy errors — zipping
[Success(a, name="x"), Failure(e1), Failure(e2)] settles to Failure(e1);
a first Failure(null) child does not claim the error slot, so a following
Failure("real") makes the aggregate settle to Failure("real"); a first
non-null falsy error ("") makes the aggregate a Success despite the
failure, as does a lone Failure(null); and a successful zip is keyed by
name and positional fallback. -/
theorem zip_first_error_amended_witness :
    zipM ([(some "x", Either.success (JSVal.num 1))] ++
          (none, Either.failure (JSVal.str "e1")) ::
          [(none, Either.failure (JSVal.str "e2"))])
      = Either.failure (JSVal.str "e1")
    ∧ zipM ([(none, (Either.failure JSVal.nullV : Either JSVal JSVal))] ++
          (none, Either.failure (JSVal.str "real")) :: [])
      = Either.failure (JSVal.str "real")
    ∧ (zipM ([] ++ (none, (Either.failure (JSVal.str "") : Either JSVal JSVal))
          :: [])).isSuccess = true
    ∧ (zipM [(none, (Either.failure JSVal.nullV : Either JSVal JSVal))]).isSuccess
        = true
    ∧ zipM (([(some "x", JSVal.num 1), (none, JSVal.num 2)]
          : List (Option String × JSVal)).map
            (fun x => (x.1, Either.success x.2)))
      = Either.success [("x", JSVal.num 1), ("m1", JSVal.num 2)] := by
  refine ⟨?_, ?_, ?_, ?_, ?_⟩
  · exact (zip_first_error_amended JSVal).1 _ _ none (JSVal.str "e1")
      (by intro x hx; simp at hx; simp [hx, Either.isSuccess]) rfl
  · exact (zip_first_error_amended JSVal).1 _ _ none (JSVal.str "real")
      (by intro x hx; simp at hx; simp [hx]) rfl
  · exact (zip_first_error_amended JSVal).2.1 [] _ none (JSVal.str "")
      (by intro x hx; simp at hx) (by simp) rfl
  · exact (zip_first_error_amended JSVal).2.2.1 _
      (by intro x hx; simp at hx; simp [hx])
  · have h := (zip_first_error_amended JSVal).2.2.2
      [(some "x", JSVal.num 1), (none, JSVal.num 2)]
      (by intro x hx; simp at hx; rcases hx with h1 | h1 <;> simp [h1])
    simpa [zipSpecEntries] using h

lemma retry_all_fail (T : Type) (op : Nat → Either T JSVal) (times : Nat) :
    ∀ r : Nat,
      (∀ i, times - r ≤ i → i ≤ times → ∃ e, op i = Either.failure e ∧ e.truthy = true) →
      (retryOperation op times r).2.length = r
      ∧ (retryOperation op times r).1.isSuccess = false := by
  intro r
  induction r with
  | zero =>
      intro h
      obtain ⟨e, he, _⟩ := h times (by omega) (by omega)
      simp [retryOperation, he, Either.isSuccess]
  | succ r ih =>
      intro h
      obtain ⟨e, he, ht⟩ := h (times - (r + 1)) (by omega) (by omega)
      have ihh := ih (fun i h1 h2 => h i (by omega) h2)
      simp [retryOperation, he, ht, ihh.1, ihh.2]

lemma retry_first_success (T : Type) (op : Nat → Either T JSVal)
    (times j : Nat) (v : T) :
    ∀ r : Nat, r ≤ times → times - r ≤ j → j ≤ times →
      op j = Either.success v →
      (∀ i, times - r ≤ i → i < j → ∃ e, op i = Either.failure e ∧ e.truthy = true) →
      (retryOperation op times r).1 = Either.success v
      ∧ (retryOperation op times r).2.length = j - (times - r) := by
  intro r
  induction r with
  | zero =>
      intro _ hlo hhi hj _
      have hje : j = times := by omega
      subst hje
      simp [retryOperation, hj]
  | succ r ih =>
      intro hr hlo hhi hj hfail
      by_cases hn : times - (r + 1) = j
      · simp only [retryOperation]
        rw [hn, hj]
        simp [hn]
      · have hlt : times - (r + 1) < j := by omega
        obtain ⟨e, he, ht⟩ := hfail (times - (r + 1)) (by omega) hlt
        have ihh := ih (by omega) (by omega) hhi hj
          (fun i h1 h2 => hfail i (by omega) h2)
        simp only [retryOperation, he]
        rw [if_pos ht]
        refine ⟨ihh.1, ?_⟩
        simp only [List.singleton_append, List.length_cons, ihh.2]
        omega

/-- C5 counterexample: retry with times = 1 and an always-failing operation
makes two attempts but invokes onError only once (after the first failure),
not times + 1 = 2 times — the source returns before the onError call when
retriesLeft has reached 0, so the final failed attempt never reports. -/
theorem retry_onError_counterexample :
    (retryM (fun _ : Nat => (Either.failure (JSVal.str "x") : Either JSVal JSVal))
        1).2.length = 1
    ∧ (1 : Nat) ≠ 1 + 1 := by
  constructor
  · rfl
  · omega

/-- C5 amended: with an onError callback supplied and truthy errors, onError
fires after every failed attempt except the final one: if no attempt ever
succeeds, onError is called exactly `times` times (over times + 1 attempts,
the run ending in Failure); if the k-th attempt (1-based, index j = k - 1)
is the first success, onError is called exactly k - 1 times and the run
ends in that Success. -/
theorem retry_onError_amended (T : Type) (op : Nat → Either T JSVal)
    (times j : Nat) (v : T) :
    ((∀ i, i ≤ times → ∃ e, op i = Either.failure e ∧ e.truthy = true) →
       (retryM op times).2.length = times
       ∧ (retryM op times).1.isSuccess = false)
    ∧ (j ≤ times → op j = Either.success v →
       (∀ i, i < j → ∃ e, op i = Either.failure e ∧ e.truthy = true) →
       (retryM op times).1 = Either.success v
       ∧ (retryM op times).2.length = j) := by
  constructor
  · intro h
    exact retry_all_fail T op times times (fun i _ h2 => h i h2)
  · intro hj hsucc hfail
    have h := retry_first_success T op times j v times (le_refl times)
      (by omega) hj hsucc (fun i _ h2 => hfail i h2)
    simpa [retryM, Nat.sub_self] using h

/-- C5 witness: an operation failing on its first two attempts and
succeeding on the third, run with times = 5, settles Success with onError
called exactly twice; an operation that never succeeds, run with times = 3,
calls onError exactly three times. -/
theorem retry_onError_amended_witness :
    ((retryM (fun i : Nat =>
        if i = 2 then Either.success (JSVal.num 7)
        else (Either.failure (JSVal.str "x") : Either JSVal JSVal)) 5).1
      = Either.success (JSVal.num 7)
     ∧ (retryM (fun i : Nat =>
        if i = 2 then Either.success (JSVal.num 7)
        else (Either.failure (JSVal.str "x") : Either JSVal JSVal)) 5).2.length = 2)
    ∧ (retryM (fun _ : Nat =>
        (Either.failure (JSVal.str "x") : Either JSVal JSVal)) 3).2.length = 3 := by
  constructor
  · exact (retry_onError_amended JSVal _ 5 2 (JSVal.num 7)).2 (by omega) (by simp)
      (fun i hi => ⟨JSVal.str "x", by simp [show i ≠ 2 by omega], rfl⟩)
  · exact ((retry_onError_amended JSVal _ 3 0 (JSVal.num 0)).1
      (fun i _ => ⟨JSVal.str "x", rfl, rfl⟩)).1

lemma matchGo_skip_nonmatching (v : JSVal) (opts : MatchOptions)
    (pre : List MatchCond) :
    ∀ (rest : List MatchCond) (m : Bool),
      (∀ c ∈ pre, c.condition v = FnRes.returns false) →
      matchGo v opts (pre ++ rest) m = matchGo v opts rest m := by
  induction pre with
  | nil => intro rest m _; rfl
  | cons c pre ih =>
      intro rest m h
      have hc := h c (List.mem_cons_self _ _)
      simp only [List.cons_append, matchGo, hc, Bool.false_eq_true, if_neg]
      exact ih rest m (fun c2 h2 => h c2 (List.mem_cons_of_mem _ h2))

lemma matchGo_every_all_ok (v : JSVal) (opts : MatchOptions)
    (hmode : opts.mode = none) :
    ∀ conds : List MatchCond,
      (∀ c ∈ conds, c.condition v = FnRes.returns true
        ∧ ∃ a, c.action v = ActionRes.ok a) →
      matchGo v opts conds true = PResult.resolved (Either.success v) := by
  intro conds
  induction conds with
  | nil => intro _; simp [matchGo]
  | cons c rest ih =>
      intro h
      obtain ⟨hc, a, ha⟩ := h c (List.mem_cons_self _ _)
      simp only [matchGo, hc, if_pos rfl, ha, hmode]
      simp only [reduceCtorEq, if_neg]
      exact ih (fun c2 h2 => h c2 (List.mem_cons_of_mem _ h2))

/-- C4 counterexample: on Success(1), a single condition that matches and
whose action returns 2, run with the partially-specified options
{continueIfNoMatch: true} (mode omitted), settles to Success(1) — the
original value — not to Success(2) as FIRST mode would require, because
`options.mode === MatchMode.FIRST` compares undefined against 0. -/
theorem match_partial_options_counterexample :
    matchM [⟨fun _ => FnRes.returns true, fun _ => ActionRes.ok (JSVal.num 2)⟩]
        { continueIfNoMatch := some true } (Either.success (JSVal.num 1))
      = PResult.resolved (Either.success (JSVal.num 1))
    ∧ (PResult.resolved (Either.success (JSVal.num 1))
          : PResult (Either JSVal JSVal))
        ≠ PResult.resolved (Either.success (JSVal.num 2)) := by
  constructor
  · rfl
  · simp

/-- C4 amended: FIRST-mode behaviour holds only when the options argument is
omitted entirely (the TS default parameter then supplies mode = FIRST): the
first matching condition's action result becomes the new Success value, no
matter what conditions follow.  When an options object is supplied without
mode, the strict comparison with MatchMode.FIRST fails and match behaves
like EVERY mode: every matching condition's action runs, the action results
are discarded, and the original Success value is returned. -/
theorem match_mode_default_amended :
    (∀ (v a : JSVal) (pre : List MatchCond) (c : MatchCond)
       (rest : List MatchCond),
       (∀ c2 ∈ pre, c2.condition v = FnRes.returns false) →
       c.condition v = FnRes.returns true →
       c.action v = ActionRes.ok a →
       matchM (pre ++ c :: rest) matchDefaults (Either.success v)
         = PResult.resolved (Either.success a))
    ∧ (∀ (v : JSVal) (conds : List MatchCond) (opts : MatchOptions),
       opts.mode = none → conds ≠ [] →
       (∀ c ∈ conds, c.condition v = FnRes.returns true
         ∧ ∃ a, c.action v = ActionRes.ok a) →
       matchM conds opts (Either.success v)
         = PResult.resolved (Either.success v)) := by
  constructor
  · intro v a pre c rest hpre hc ha
    simp only [matchM]
    rw [matchGo_skip_nonmatching v matchDefaults pre (c :: rest) false hpre]
    simp [matchGo, hc, ha, matchDefaults]
  · intro v conds opts hmode hne h
    obtain ⟨c, rest, rfl⟩ : ∃ c rest, conds = c :: rest := by
      cases conds with
      | nil => exact absurd rfl hne
      | cons c rest => exact ⟨c, rest, rfl⟩
    obtain ⟨hc, a, ha⟩ := h c (List.mem_cons_self _ _)
    simp only [matchM, matchGo, hc, if_pos rfl, ha, hmode]
    simp only [reduceCtorEq, if_neg]
    exact matchGo_every_all_ok v opts hmode rest
      (fun c2 h2 => h c2 (List.mem_cons_of_mem _ h2))

/-- C4 witness: with options omitted (the default record), a matching action
returning 2 yields Success(2) regardless of a trailing condition; with
{continueIfNoMatch: true} and mode omitted, two matching ok-actions leave
the original Success(1) in place. -/
theorem match_mode_default_amended_witness :
    matchM ([] ++ ⟨fun _ => FnRes.returns true, fun _ => ActionRes.ok (JSVal.num 2)⟩ ::
          [⟨fun _ => FnRes.returns true, fun _ => ActionRes.ok (JSVal.num 9)⟩])
        matchDefaults (Either.success (JSVal.num 1))
      = PResult.resolved (Either.success (JSVal.num 2))
    ∧ matchM [⟨fun _ => FnRes.returns true, fun _ => ActionRes.ok (JSVal.num 2)⟩,
              ⟨fun _ => FnRes.returns true, fun _ => ActionRes.ok (JSVal.num 9)⟩]
        { continueIfNoMatch := some true } (Either.success (JSVal.num 1))
      = PResult.resolved (Either.success (JSVal.num 1)) := by
  constructor
  · exact match_mode_default_amended.1 (JSVal.num 1) (JSVal.num 2) [] _ _
      (by intro c2 h2; simp at h2) rfl rfl
  · exact match_mode_default_amended.2 (JSVal.num 1) _ _ rfl (by simp)
      (by intro c h; simp at h;
          rcases h with h | h <;> subst h <;>
            exact ⟨rfl, _, rfl⟩)

/-- C10: in FIRST mode (mode explicitly FIRST), the first matching
condition's action value — any JS value, including one of the error type —
becomes the new Success value; only a thrown exception or rejected action
promise (with continueOnError falsy) produces a Failure, carrying the
coerced thrown value. -/
theorem match_first_returned_error_value (v a : JSVal) (opts : MatchOptions)
    (pre : List MatchCond) (c : MatchCond) (rest : List MatchCond)
    (hmode : opts.mode = some MatchMode.first)
    (hpre : ∀ c2 ∈ pre, c2.condition v = FnRes.returns false)
    (hc : c.condition v = FnRes.returns true) :
    (c.action v = ActionRes.ok a →
       matchM (pre ++ c :: rest) opts (Either.success v)
         = PResult.resolved (Either.success a))
    ∧ (∀ ex, c.action v = ActionRes.thrown ex →
       optTruthy opts.continueOnError = false →
       matchM (pre ++ c :: rest) opts (Either.success v)
         = PResult.resolved (Either.failure (coerceErr ex))) := by
  constructor
  · intro ha
    simp only [matchM]
    rw [matchGo_skip_nonmatching v opts pre (c :: rest) false hpre]
    simp [matchGo, hc, ha, hmode]
  · intro ex ha hcoe
    simp only [matchM]
    rw [matchGo_skip_nonmatching v opts pre (c :: rest) false hpre]
    simp [matchGo, hc, ha, hcoe]

/-- C10 witness: an action returning the Error instance "E" becomes
Success(Error "E"), while an action that throws the Error "E" becomes
Failure("E") (the coerced message). -/
theorem match_first_returned_error_value_witness :
    matchM ([] ++ ⟨fun _ => FnRes.returns true,
                   fun _ => ActionRes.ok (JSVal.errObj "E")⟩ :: [])
        matchDefaults (Either.success (JSVal.num 1))
      = PResult.resolved (Either.success (JSVal.errObj "E"))
    ∧ matchM ([] ++ ⟨fun _ => FnRes.returns true,
                     fun _ => ActionRes.thrown (JSVal.errObj "E")⟩ :: [])
        matchDefaults (Either.success (JSVal.num 1))
      = PResult.resolved (Either.failure (coerceErr (JSVal.errObj "E"))) := by
  constructor
  · exact (match_first_returned_error_value (JSVal.num 1) (JSVal.errObj "E")
      matchDefaults [] _ [] rfl (by intro c2 h2; simp at h2) rfl).1 rfl
  · exact (match_first_returned_error_value (JSVal.num 1) (JSVal.num 0)
      matchDefaults [] _ [] rfl (by intro c2 h2; simp at h2) rfl).2
      (JSVal.errObj "E") rfl rfl

/-- C3 counterexample: a recover callback that throws the Error "boom" on a
Failure("e") receiver makes the derived Monad's wrapped promise reject with
the exception — it is not delivered as a Failure through the Either channel,
so yield() on that Monad yields a rejecting promise. -/
theorem recover_throw_rejects_counterexample :
    recoverM (fun _ => FnRes.throws (JSVal.errObj "boom"))
        (Either.failure (JSVal.str "e") : Either JSVal JSVal)
      = PResult.rejected (JSVal.errObj "boom")
    ∧ (PResult.rejected (JSVal.errObj "boom") : PResult (Either JSVal JSVal))
        ≠ PResult.resolved (Either.failure (JSVal.errObj "boom")) := by
  constructor
  · rfl
  · simp

/-- C3 amended: exceptions thrown by the user functions of map and flatMap,
by filter's predicate, and by a match condition's action are captured and
delivered as Failures through the Either channel (coerced to the message
string for Error instances, with filter substituting errorFn's value); but
the callbacks of recover, orElse, tap, log's transformer, and handleErrors'
handler run unguarded, so an exception they throw rejects the derived
Monad's yielded promise instead of becoming a Failure.  toPromise re-raises
a Failure's error as a rejection, and fold guards its callbacks, reporting
their exceptions in the FoldResult's error field. -/
theorem error_channel_amended (T U : Type) (v : T) (e ex : JSVal) :
    (∀ fn : T → FnRes U, fn v = FnRes.throws ex →
       mapM fn (Either.success v)
         = PResult.resolved (Either.failure (coerceErr ex)))
    ∧ (∀ fn : T → FnRes (FMRes U), fn v = FnRes.throws ex →
       flatMapM fn (Either.success v)
         = PResult.resolved (Either.failure (coerceErr ex)))
    ∧ (∀ (p : T → FnRes Bool) (ef : T → FnRes JSVal) (err : JSVal),
       p v = FnRes.throws ex → ef v = FnRes.returns err →
       filterM p ef (Either.success v)
         = PResult.resolved (Either.failure err))
    ∧ (∀ (c : MatchCond) (w : JSVal), c.condition w = FnRes.returns true →
       c.action w = ActionRes.thrown ex →
       matchM [c] matchDefaults (Either.success w)
         = PResult.resolved (Either.failure (coerceErr ex)))
    ∧ (∀ fn : JSVal → FnRes T, fn e = FnRes.throws ex →
       recoverM fn (Either.failure e) = PResult.rejected ex)
    ∧ (∀ alt : JSVal → FnRes (PResult (Either T JSVal)),
       alt e = FnRes.throws ex →
       orElseM alt (Either.failure e) = PResult.rejected ex)
    ∧ (∀ fn : T → FnRes (PResult Unit), fn v = FnRes.throws ex →
       tapM fn (Either.success v) = PResult.rejected ex)
    ∧ (∀ (tr : Either T JSVal → FnRes JSVal) (x : Either T JSVal),
       tr x = FnRes.throws ex → logM none tr x = PResult.rejected ex)
    ∧ (∀ (criteria : ErrorCriteria)
         (handler : JSVal → FnRes (PResult (Either T JSVal))),
       criteriaMatch criteria e = true → handler e = FnRes.throws ex →
       handleErrorsM criteria handler (Either.failure e) = PResult.rejected ex)
    ∧ toPromiseM (PResult.resolved (Either.failure e) : PResult (Either T JSVal))
        = PResult.rejected e
    ∧ (∀ (onS : T → FnRes U) (onF : JSVal → FnRes U),
       onS v = FnRes.throws ex →
       foldM onS onF (PResult.resolved (Either.success v)) = FoldRes.error ex) := by
  refine ⟨?_, ?_, ?_, ?_, ?_, ?_, ?_, ?_, ?_, rfl, ?_⟩
  · intro fn h; simp [mapM, h]
  · intro fn h; simp [flatMapM, h]
  · intro p ef err hp hef; simp [filterM, hp, hef]
  · intro c w hc ha; simp [matchM, matchGo, hc, ha, matchDefaults, optTruthy]
  · intro fn h; simp [recoverM, h]
  · intro alt h; simp [orElseM, h]
  · intro fn h; simp [tapM, h]
  · intro tr x h; simp [logM, h]
  · intro criteria handler hcm hh; simp [handleErrorsM, hcm, hh]
  · intro onS onF h; simp [foldM, h]

/-- C3 witness: instantiating the amended theorem at concrete values —
capture (as coerced Failure) for map, flatMap, filter and match, rejection
for recover and tap, and the stated toPromise behaviour. -/
theorem error_channel_amended_witness :
    @mapM JSVal JSVal (fun _ => FnRes.throws (JSVal.errObj "boom"))
        (Either.success (JSVal.num 1))
      = PResult.resolved (Either.failure (coerceErr (JSVal.errObj "boom")))
    ∧ @flatMapM JSVal JSVal (fun _ => FnRes.throws (JSVal.errObj "boom"))
        (Either.success (JSVal.num 1))
      = PResult.resolved (Either.failure (coerceErr (JSVal.errObj "boom")))
    ∧ filterM (fun _ : JSVal => FnRes.throws (JSVal.errObj "boom"))
        (fun _ => FnRes.returns (JSVal.str "bad"))
        (Either.success (JSVal.num 1))
      = PResult.resolved (Either.failure (JSVal.str "bad"))
    ∧ recoverM (fun _ => FnRes.throws (JSVal.errObj "boom"))
        (Either.failure (JSVal.str "e") : Either JSVal JSVal)
      = PResult.rejected (JSVal.errObj "boom")
    ∧ tapM (fun _ : JSVal => FnRes.throws (JSVal.errObj "boom"))
        (Either.success (JSVal.num 1))
      = PResult.rejected (JSVal.errObj "boom")
    ∧ toPromiseM
        (PResult.resolved (Either.failure (JSVal.str "e"))
          : PResult (Either JSVal JSVal))
      = PResult.rejected (JSVal.str "e") := by
  have h := error_channel_amended JSVal JSVal (JSVal.num 1) (JSVal.str "e")
    (JSVal.errObj "boom")
  exact ⟨h.1 _ rfl, h.2.1 _ rfl, h.2.2.1 _ _ (JSVal.str "bad") rfl rfl,
    h.2.2.2.2.1 _ rfl, h.2.2.2.2.2.2.1 _ rfl, h.2.2.2.2.2.2.2.2.2.1⟩

/-- C1: the underlying deferred computation of a Monad executes at most
once: awaiting the promise returned by yield() a second time returns the
identical settled value with no state change and no re-execution (the
execution count rises by at most one across any number of awaits); a
combinator (modelled as `derive`, new Monad(this.value.then(transform)))
returns a new Monad wrapping a fresh pending promise, and evaluating the
derived computation against an already-settled parent leaves the parent —
hence the original Monad's settled Either — completely unchanged, while
yield() itself returns the wrapped promise as-is. -/
theorem monad_evaluates_at_most_once (α β : Type) (p : JsPromise α)
    (tf : α → β) (e : α) :
    ((p.awaitStep.2).awaitStep).1 = p.awaitStep.1
    ∧ ((p.awaitStep.2).awaitStep).2 = p.awaitStep.2
    ∧ p.awaitStep.2.execs ≤ p.execs + 1
    ∧ (p.memo = some e → chainEval p tf = (tf e, p))
    ∧ (∀ m : MonadP α, (m.derive tf).value.memo = none
        ∧ (m.derive tf).value.execs = 0
        ∧ m.yieldP = m.value) := by
  cases hm : p.memo with
  | some v =>
      refine ⟨?_, ?_, ?_, ?_, fun m => ⟨rfl, rfl, rfl⟩⟩
      · simp [JsPromise.awaitStep, hm]
      · simp [JsPromise.awaitStep, hm]
      · simp [JsPromise.awaitStep, hm]
      · intro he
        cases he
        simp [chainEval, JsPromise.awaitStep, hm]
  | none =>
      refine ⟨?_, ?_, ?_, ?_, fun m => ⟨rfl, rfl, rfl⟩⟩
      · simp [JsPromise.awaitStep, hm]
      · simp [JsPromise.awaitStep, hm]
      · simp [JsPromise.awaitStep, hm]
      · intro he
        simp at he

/-- C1 witness: a settled promise holding Success(1), evaluated through a
map-derived computation, yields the mapped either and the parent promise
unchanged. -/
theorem monad_evaluates_at_most_once_witness :
    chainEval
        (⟨⟨fun _ => Either.success (JSVal.num 1)⟩,
          some (Either.success (JSVal.num 1)), 1⟩
          : JsPromise (Either JSVal JSVal))
        (mapM (fun x : JSVal => FnRes.returns x))
      = (PResult.resolved (Either.success (JSVal.num 1)),
         ⟨⟨fun _ => Either.success (JSVal.num 1)⟩,
          some (Either.success (JSVal.num 1)), 1⟩) :=
  (monad_evaluates_at_most_once (Either JSVal JSVal)
      (PResult (Either JSVal JSVal))
      ⟨⟨fun _ => Either.success (JSVal.num 1)⟩,
        some (Either.success (JSVal.num 1)), 1⟩
      (mapM (fun x : JSVal => FnRes.returns x))
      (Either.success (JSVal.num 1))).2.2.2.1 rfl

/-- C8: in the discrete event model of the timeout race, an operation that
has not settled when the duration elapses loses the race and the result
settles to Failure(timeoutError); an operation settling before the timer
with Success, or with a Failure that is not the cancellation AbortError,
determines the result with its own settled Either; and the outer result
always equals the chronologically first resolve call made on the outer
promise — later resolve calls from the losing path are ignored, so exactly
one of the two racing paths determines the outcome. -/
theorem timeout_race_behavior (T : Type) (outcome : OpOutcome T)
    (opTime duration : Nat) (terr : JSVal) :
    (duration < opTime →
       timeoutM outcome opTime duration terr = Either.failure terr)
    ∧ (∀ v : T, opTime < duration →
       outcome = OpOutcome.resolves (Either.success v) →
       timeoutM outcome opTime duration terr = Either.success v)
    ∧ (∀ e : JSVal, opTime < duration → e.isAbortError = false →
       outcome = OpOutcome.resolves (Either.failure e) →
       timeoutM outcome opTime duration terr = Either.failure e)
    ∧ (timeoutResolveCalls outcome opTime duration terr).head?
        = some (timeoutM outcome opTime duration terr) := by
  refine ⟨?_, ?_, ?_, ?_⟩
  · intro h
    simp [timeoutM, show ¬ opTime < duration by omega]
  · intro v h hout
    subst hout
    simp [timeoutM, h]
  · intro ev h habort hout
    subst hout
    simp [timeoutM, h, habort]
  · by_cases h : opTime < duration
    · cases outcome with
      | resolves r =>
          cases r with
          | success v => simp [timeoutM, timeoutResolveCalls, h]
          | failure ev =>
              by_cases ha : ev.isAbortError <;>
                simp [timeoutM, timeoutResolveCalls, h, ha]
      | rejects r => simp [timeoutM, timeoutResolveCalls, h]
    · simp [timeoutM, timeoutResolveCalls, h]

/-- C8 witness: the spec's race examples — an operation settling at 100ms
raced against a 50ms timer settles Failure(timeout error); an operation
settling Success(42) at 10ms raced the same way settles Success(42). -/
theorem timeout_race_behavior_witness :
    timeoutM (OpOutcome.resolves (Either.success (JSVal.num 42))) 100 50
        (JSVal.errObj "Operation timed out")
      = Either.failure (JSVal.errObj "Operation timed out")
    ∧ timeoutM (OpOutcome.resolves (Either.success (JSVal.num 42))) 10 50
        (JSVal.errObj "Operation timed out")
      = Either.success (JSVal.num 42) :=
  ⟨(timeout_race_behavior JSVal
      (OpOutcome.resolves (Either.success (JSVal.num 42))) 100 50
      (JSVal.errObj "Operation timed out")).1 (by omega),
   (timeout_race_behavior JSVal
      (OpOutcome.resolves (Either.success (JSVal.num 42))) 10 50
      (JSVal.errObj "Operation timed out")).2.1 (JSVal.num 42) (by omega) rfl⟩

end Monadic
